import Mathlib

/-!
Shallow embedding of `src/websocket_backend.py`, the WebSocket backend relay
of the face_locking_with_motor repository, together with proofs of the
specification's claims about it.

The Python module relays MQTT messages to WebSocket clients:
  * a global set `websocket_clients` of connected client handles,
  * caches `latest_movement_data` (one value) and `latest_heartbeat_data`
    (a dict keyed by the payload's `node` field),
  * `on_mqtt_message` parses an inbound bus payload, normalizes a missing
    `timestamp`, routes it to a cache by topic, and broadcasts an envelope,
  * `broadcast_to_clients` fans the envelope out to every registered client,
    collecting clients whose send raised and discarding them after the pass,
  * `handle_websocket_client` registers a new client, sends welcome and
    cached-state snapshot envelopes, answers `ping` with `pong`, and on any
    exit path discards the client in a `finally` block.

JSON payloads are modelled by the inductive `JValue` (strings, integers and
objects cover every field this program reads or writes); Python dicts are
association lists with Python's update-in-place-or-append semantics; client
handles are naturals; the outcome of `await client.send(...)` is supplied by
an oracle so that every failure pattern is quantified over; `int(time.time())`
is a whole-second integer parameter `now` fixed at the moment of the call.
-/

set_option autoImplicit false

namespace FaceLockWS

/-- JSON-like values: the payloads this program manipulates are JSON objects
whose fields are strings, integers, or nested objects (deserialized by
`json.loads`, serialized by `json.dumps`). -/
inductive JValue where
  | str : String → JValue
  | num : Int → JValue
  | obj : List (String × JValue) → JValue

/-- Structural equality of JSON values (Python `==` on decoded payloads). -/
def JValue.beq : JValue → JValue → Bool
  | .str a, .str b => a == b
  | .num a, .num b => a == b
  | .obj a, .obj b => beqFields a b
  | _, _ => false
where beqFields : List (String × JValue) → List (String × JValue) → Bool
  | [], [] => true
  | (k, v) :: r, (k2, v2) :: r2 => k == k2 && JValue.beq v v2 && beqFields r r2
  | _, _ => false

mutual

def JValue.beq_iff : ∀ (a b : JValue), (JValue.beq a b = true) ↔ a = b
  | .str _, .str _ => by simp [JValue.beq]
  | .str _, .num _ => by simp [JValue.beq]
  | .str _, .obj _ => by simp [JValue.beq]
  | .num _, .str _ => by simp [JValue.beq]
  | .num _, .num _ => by simp [JValue.beq]
  | .num _, .obj _ => by simp [JValue.beq]
  | .obj _, .str _ => by simp [JValue.beq]
  | .obj _, .num _ => by simp [JValue.beq]
  | .obj a, .obj b => by
      rw [show JValue.beq (.obj a) (.obj b) = JValue.beq.beqFields a b from rfl]
      rw [JValue.beqFields_iff a b]
      simp

def JValue.beqFields_iff :
    ∀ (a b : List (String × JValue)), (JValue.beq.beqFields a b = true) ↔ a = b
  | [], [] => by simp [JValue.beq.beqFields]
  | [], (_, _) :: _ => by simp [JValue.beq.beqFields]
  | (_, _) :: _, [] => by simp [JValue.beq.beqFields]
  | (k, v) :: r, (k2, v2) :: r2 => by
      simp only [JValue.beq.beqFields, Bool.and_eq_true, beq_iff_eq,
        JValue.beq_iff v v2, JValue.beqFields_iff r r2, List.cons.injEq,
        Prod.mk.injEq, and_assoc]

end

instance : BEq JValue := ⟨JValue.beq⟩

instance : LawfulBEq JValue where
  eq_of_beq h := (JValue.beq_iff _ _).mp h
  rfl := (JValue.beq_iff _ _).mpr rfl

instance : DecidableEq JValue :=
  fun a b => decidable_of_iff (JValue.beq a b = true) (JValue.beq_iff a b)

/-- A parsed JSON object body, as `json.loads` produces for a dict: an
association list of string keys to values, in insertion order. -/
abbrev JDict := List (String × JValue)

section DictOps

variable {κ α : Type} [BEq κ]

/-- Python `k in d`: key membership in a dict (modelled, like every dict
here, as an association list in insertion order). -/
def hasKey (d : List (κ × α)) (k : κ) : Bool :=
  d.any (fun p => p.1 == k)

/-- Python `d.get(k)` / `d[k]`: the value stored under `k`, if any. -/
def dget (d : List (κ × α)) (k : κ) : Option α :=
  (d.find? (fun p => p.1 == k)).map Prod.snd

/-- Python `d.get(k, default)`. -/
def dgetD (d : List (κ × α)) (k : κ) (v : α) : α :=
  (dget d k).getD v

/-- Python `d[k] = v`: replace the binding in place when the key is present,
append a new binding otherwise. -/
def dset (d : List (κ × α)) (k : κ) (v : α) : List (κ × α) :=
  if hasKey d k then d.map (fun p => if p.1 == k then (p.1, v) else p)
  else d ++ [(k, v)]

end DictOps

-- ===================== CONFIGURATION (lines 14-19) =====================

/-- `TEAM_ID = "sudoers"`. -/
def TEAM_ID : String := "sudoers"

/-- `MQTT_TOPIC = f"vision/{TEAM_ID}/movement"`. -/
def MQTT_TOPIC : String := "vision/" ++ TEAM_ID ++ "/movement"

/-- `MQTT_HEARTBEAT_TOPIC = f"vision/{TEAM_ID}/heartbeat"`. -/
def MQTT_HEARTBEAT_TOPIC : String := "vision/" ++ TEAM_ID ++ "/heartbeat"

-- ===================== GLOBAL STATE (lines 21-25) =====================

/-- The heartbeat cache `latest_heartbeat_data`: a Python dict keyed by the
value of each payload's `node` field (any hashable JSON value; in practice a
string, with the literal string `"unknown"` as the default). It shares the
dict operations `hasKey`/`dget`/`dset` above. -/
abbrev HbCache := List (JValue × JDict)

/-- The module-level mutable state: the client registry `websocket_clients`
(a set of handles, modelled as a duplicate-free list of naturals), the
movement cache `latest_movement_data` (initially `None`), and the heartbeat
cache `latest_heartbeat_data` (initially `{}`). -/
structure BackendState where
  websocket_clients : List Nat
  latest_movement_data : Option JDict
  latest_heartbeat_data : HbCache
deriving DecidableEq

-- ===================== CLIENT REGISTRY OPERATIONS =====================

/-- Python `websocket_clients.add(c)`: a set insert, a no-op when the handle
is already a member. -/
def registryAdd (reg : List Nat) (c : Nat) : List Nat :=
  if c ∈ reg then reg else reg ++ [c]

/-- Python `websocket_clients.discard(c)`: a set delete that never raises,
a no-op when the handle is absent. -/
def registryDiscard (reg : List Nat) (c : Nat) : List Nat :=
  reg.filter (fun x => x ≠ c)

-- ===================== broadcast_to_clients (lines 97-114) =====================

/-- The exception a modelled `await client.send(...)` may raise:
`websockets.exceptions.ConnectionClosed` (line 106) or any other
exception (line 108). `broadcast_to_clients` treats both the same way,
collecting the client for removal. -/
inductive SendError where
  | connectionClosed
  | otherError
deriving DecidableEq

/-- What a call to `broadcast_to_clients` did: the registry it leaves
behind, the sends it attempted in iteration order, and the sends that
succeeded. The function returns normally for every send outcome — the
per-client `try/except` swallows each failure — which is why its model is a
total function into this structure rather than an `Except`. -/
structure BroadcastResult where
  registry : List Nat
  attempted : List (Nat × JValue)
  delivered : List (Nat × JValue)
deriving DecidableEq

/-- The `for client in websocket_clients` loop of lines 103-110: each
member's send is attempted in order; a send that raises (either exception
class) appends the client to `disconnected` and the loop continues with the
next member. Returns (attempted sends, delivered sends, disconnected). -/
def broadcastLoop (sendr : Nat → Except SendError Unit) (message : JValue) :
    List Nat → List (Nat × JValue) × List (Nat × JValue) × List Nat
  | [] => ([], [], [])
  | c :: rest =>
    let (att, del, disc) := broadcastLoop sendr message rest
    match sendr c with
    | .ok _ => ((c, message) :: att, (c, message) :: del, disc)
    | .error _ => ((c, message) :: att, del, c :: disc)

/-- Lines 113-114: `for client in disconnected: websocket_clients.discard(client)`,
run only after the full fan-out loop has finished. -/
def discardAll (reg : List Nat) (disc : List Nat) : List Nat :=
  disc.foldl registryDiscard reg

/-- `broadcast_to_clients(message)` (lines 97-114): when the registry is
non-empty, attempt delivery to every member, collect the clients whose send
raised, and only after the pass discard them from the registry. `sendr`
is the oracle giving each client's send outcome for this pass; `message`
is the (already serialized) envelope passed to every send. -/
def broadcast_to_clients (sendr : Nat → Except SendError Unit) (message : JValue)
    (reg : List Nat) : BroadcastResult :=
  if reg.isEmpty then ⟨reg, [], []⟩
  else
    let (att, del, disc) := broadcastLoop sendr message reg
    ⟨discardAll reg disc, att, del⟩

-- ===================== on_mqtt_message (lines 40-72) =====================

/-- Whether a JSON value can be a Python dict key: strings and numbers are
hashable; a dict is not, and using one as a key raises `TypeError`. -/
def hashableKey : JValue → Bool
  | .obj _ => false
  | _ => true

/-- Line 58: `node = data.get('node', 'unknown')`. -/
def nodeKey (data : JDict) : JValue :=
  dgetD data "node" (.str "unknown")

/-- Lines 50-51: `if 'timestamp' not in data: data['timestamp'] = int(time.time())`,
with `now` the whole-second Unix time at the moment of the call. -/
def normalizeTimestamp (data : JDict) (now : Int) : JDict :=
  if hasKey data "timestamp" then data else dset data "timestamp" (.num now)

/-- Lines 63-67: the relay envelope built for every bus event,
`{"type": "mqtt_message", "topic": topic, "data": data}`. -/
def mqttEnvelope (topic : String) (data : JDict) : JValue :=
  .obj [("type", .str "mqtt_message"), ("topic", .str topic), ("data", .obj data)]

/-- `on_mqtt_message` (lines 40-72). `parsed` is the outcome of lines 46-47:
`none` when `payload.decode('utf-8')` or `json.loads` raised (the
`except` at line 71 logs and discards the event), `some pd` the decoded
dict otherwise. The whole body runs inside one `try`: a missing timestamp
is filled with the receive time, the payload is routed to the cache matching
`topic`, and the relay envelope is broadcast. Storing a heartbeat payload
whose `node` value is itself a dict raises `TypeError` at line 59 (dicts
are unhashable); that exception is caught by the same `except`, so the
event is discarded before any broadcast. Returns the new module state and
the envelope broadcast, if any. -/
def on_mqtt_message (sendr : Nat → Except SendError Unit) (st : BackendState)
    (topic : String) (parsed : Option JDict) (now : Int) :
    BackendState × Option JValue :=
  match parsed with
  | none => (st, none)
  | some pd =>
    let data := normalizeTimestamp pd now
    if topic == MQTT_HEARTBEAT_TOPIC && !hashableKey (nodeKey data) then
      (st, none)
    else
      let st1 :=
        if topic == MQTT_TOPIC then
          { st with latest_movement_data := some data }
        else if topic == MQTT_HEARTBEAT_TOPIC then
          let hb := dset st.latest_heartbeat_data (nodeKey data) data
          { st with latest_heartbeat_data := hb }
        else st
      let message := mqttEnvelope topic data
      let br := broadcast_to_clients sendr message st1.websocket_clients
      ({ st1 with websocket_clients := br.registry }, some message)

-- ===================== handle_websocket_client (lines 116-178) =====================

/-- Lines 126-131: the welcome envelope sent immediately after the client
is added to the registry. -/
def welcomeMessage (now : Int) : JValue :=
  .obj [("type", .str "welcome"), ("team_id", .str TEAM_ID),
        ("timestamp", .num now),
        ("message", .str ("Connected to " ++ TEAM_ID ++ " team dashboard"))]

/-- Lines 136-140: the movement snapshot envelope, carrying the cached
movement payload — the same shape as the per-event relay envelope. -/
def movementMessage (d : JDict) : JValue :=
  mqttEnvelope MQTT_TOPIC d

/-- How `json.dumps` renders a dict key: a string key unchanged, an integer
key in decimal. (Object keys never occur: only hashable keys are stored.) -/
def keyString : JValue → String
  | .str s => s
  | .num n => toString n
  | .obj _ => ""

/-- The entire node-keyed heartbeat cache as one JSON object, as line 147
serializes it. -/
def hbCacheJson (m : HbCache) : JValue :=
  .obj (m.map (fun p => (keyString p.1, .obj p.2)))

/-- Lines 145-149: the heartbeat snapshot envelope; its `data` field is the
whole node-keyed mapping, not a single payload. -/
def heartbeatSnapshotMessage (m : HbCache) : JValue :=
  .obj [("type", .str "mqtt_message"), ("topic", .str MQTT_HEARTBEAT_TOPIC),
        ("data", hbCacheJson m)]

/-- The sends attempted by `handle_websocket_client` right after adding the
client (lines 124-150), in program order: the welcome envelope always; the
movement snapshot when `latest_movement_data` is truthy (line 135 — `None`
and the empty dict are both falsy); the heartbeat snapshot when
`latest_heartbeat_data` is a non-empty dict (line 144). -/
def connectSequence (st : BackendState) (now : Int) : List JValue :=
  [welcomeMessage now]
    ++ (match st.latest_movement_data with
        | some d => if d.isEmpty then [] else [movementMessage d]
        | none => [])
    ++ (if st.latest_heartbeat_data.isEmpty then []
        else [heartbeatSnapshotMessage st.latest_heartbeat_data])

/-- Running a list of sends in order against a per-send success oracle `ok`:
when the i-th `await websocket.send(...)` raises, the remaining sends are
not attempted (the exception propagates to the handler's outer `try`).
Returns the delivered prefix and whether the whole sequence completed. -/
def runSends (ok : Nat → Bool) : Nat → List JValue → List JValue × Bool
  | _, [] => ([], true)
  | i, m :: rest =>
    if ok i then
      let (sent, fin) := runSends ok (i + 1) rest
      (m :: sent, fin)
    else ([], false)

/-- Lines 160-163: the pong envelope, carrying the current whole-second time. -/
def pongMessage (now : Int) : JValue :=
  .obj [("type", .str "pong"), ("timestamp", .num now)]

/-- Lines 153-169, one iteration of `async for message in websocket`:
`none` models a message `json.loads` rejects (logged at line 167, no reply,
the loop continues); a parsed dict whose `type` field equals `"ping"`
(`data.get('type') == 'ping'`, false when the field is absent) is answered
with exactly one pong envelope; any other parsed message is ignored with no
reply. -/
def clientMessageStep (parsed : Option JDict) (now : Int) : Option JValue :=
  match parsed with
  | none => none
  | some data =>
    if dget data "type" = some (.str "ping") then some (pongMessage now)
    else none

/-- The Active-state receive loop: each inbound client message (paired with
the whole-second time at which it is handled) is processed independently,
and the replies are the pongs in order. A malformed message never stops the
loop: the `except` arms at lines 166-169 are inside the loop body. -/
def clientMessageLoop : List (Option JDict × Int) → List JValue
  | [] => []
  | (m, t) :: rest => (clientMessageStep m t).toList ++ clientMessageLoop rest

/-- How the `try` body of `handle_websocket_client` exits: the client
closes so the `async for` ends normally; the connection drops with
`websockets.exceptions.ConnectionClosed` (caught at line 171); or any other
unhandled error reaches the `except Exception` arm (line 173). -/
inductive ExitCause where
  | normalClose
  | connectionClosed
  | otherError
deriving DecidableEq

/-- The effect of one complete `handle_websocket_client` call on the client
registry (lines 116-178): the client is added on entry (line 122), the body
never mutates the registry, each of the three exit causes is caught by an
`except` arm (or is a normal return), and the `finally` block (line 177)
discards the client exactly once on every one of these exit paths. -/
def handleClientRegistry (reg : List Nat) (c : Nat) (e : ExitCause) : List Nat :=
  let reg1 := registryAdd reg c
  let reg2 :=
    match e with
    | .normalClose => reg1
    | .connectionClosed => reg1
    | .otherError => reg1
  registryDiscard reg2 c

-- ===================== auxiliary notions used by the theorems =====================

/-- Whether the oracle says this client's send succeeds. -/
def sendOk (sendr : Nat → Except SendError Unit) (c : Nat) : Bool :=
  match sendr c with
  | .ok _ => true
  | .error _ => false

/-- The reachable-state invariant of the movement cache: when a value is
cached it is a non-empty dict. It holds initially (nothing is cached) and
`on_mqtt_message` preserves it, because every value it stores contains a
`timestamp` key; under it, line 135's Python truthiness test
`if latest_movement_data:` coincides with "a cached value is present". -/
def movementCacheWellFormed (st : BackendState) : Bool :=
  match st.latest_movement_data with
  | some d => !d.isEmpty
  | none => true

/-- Field access on a JSON object value. -/
def jfield (v : JValue) (k : String) : Option JValue :=
  match v with
  | .obj d => dget d k
  | _ => none

-- ===================== helper lemmas =====================

/-- What the fan-out loop computes: every registered client is attempted in
order, the successful sends are delivered, and exactly the failing clients
are collected. -/
theorem broadcastLoop_spec (sendr : Nat → Except SendError Unit) (msg : JValue) :
    ∀ reg : List Nat,
      broadcastLoop sendr msg reg
        = (reg.map (fun c => (c, msg)),
           (reg.filter (sendOk sendr)).map (fun c => (c, msg)),
           reg.filter (fun c => !sendOk sendr c))
  | [] => rfl
  | c :: rest => by
      have ih := broadcastLoop_spec sendr msg rest
      cases h : sendr c <;>
        simp [broadcastLoop, ih, sendOk, h, List.filter_cons]

/-- Discarding a batch of clients is filtering out the members of the batch. -/
theorem discardAll_eq : ∀ (disc reg : List Nat),
    discardAll reg disc = reg.filter (fun x => decide (x ∉ disc))
  | [], reg => by simp [discardAll]
  | d :: rest, reg => by
      have ih := discardAll_eq rest (registryDiscard reg d)
      simp only [discardAll, List.foldl_cons] at ih ⊢
      rw [ih]
      simp only [registryDiscard, List.filter_filter]
      apply List.filter_congr
      intro x _
      by_cases hxd : x = d <;> by_cases hxr : x ∈ rest <;>
        simp [hxd, hxr]

/-- After the pass, the registry holds exactly the members whose send
succeeded: the collected failures are filtered out. -/
theorem discardAll_failed (sendr : Nat → Except SendError Unit) (reg : List Nat) :
    discardAll reg (reg.filter (fun c => !sendOk sendr c)) = reg.filter (sendOk sendr) := by
  rw [discardAll_eq]
  apply List.filter_congr
  intro x hx
  cases hs : sendOk sendr x <;> simp [List.mem_filter, hx, hs]

/-- C1: for every set of registered clients and every message, broadcast
attempts delivery to every member even when some sends fail; a failing
client is only collected during the pass and removed after the full fan-out
pass completes, so afterward the registry equals the prior member set minus
exactly the failed clients, every non-failing member received the message,
and `broadcast_to_clients` returns normally (it is a total function into
`BroadcastResult`) for every pattern of single-client failures. -/
theorem broadcast_collect_then_remove (sendr : Nat → Except SendError Unit)
    (message : JValue) (reg : List Nat) :
    (broadcast_to_clients sendr message reg).attempted
        = reg.map (fun c => (c, message))
    ∧ (broadcast_to_clients sendr message reg).registry
        = reg.filter (sendOk sendr)
    ∧ (broadcast_to_clients sendr message reg).delivered
        = (reg.filter (sendOk sendr)).map (fun c => (c, message)) := by
  by_cases hreg : reg.isEmpty
  · rw [List.isEmpty_iff] at hreg
    subst hreg
    exact ⟨rfl, rfl, rfl⟩
  · simp only [broadcast_to_clients, hreg, if_neg, Bool.false_eq_true,
      not_false_iff, broadcastLoop_spec, discardAll_failed]
    exact ⟨trivial, trivial, trivial⟩

/-- Witness for C1: three registered clients of which the second fails;
the first and third receive the message and afterward the registry holds
exactly the first and third. -/
theorem broadcast_collect_then_remove_witness :
    (broadcast_to_clients (fun c => if c = 2 then .error .connectionClosed else .ok ())
        (JValue.str "m") [1, 2, 3]).attempted
        = [(1, JValue.str "m"), (2, JValue.str "m"), (3, JValue.str "m")]
    ∧ (broadcast_to_clients (fun c => if c = 2 then .error .connectionClosed else .ok ())
        (JValue.str "m") [1, 2, 3]).registry = [1, 3]
    ∧ (broadcast_to_clients (fun c => if c = 2 then .error .connectionClosed else .ok ())
        (JValue.str "m") [1, 2, 3]).delivered
        = [(1, JValue.str "m"), (3, JValue.str "m")] := by
  obtain ⟨h1, h2, h3⟩ := broadcast_collect_then_remove
    (fun c => if c = 2 then .error .connectionClosed else .ok ())
    (JValue.str "m") [1, 2, 3]
  refine ⟨?_, ?_, ?_⟩
  · rw [h1]; decide
  · rw [h2]; decide
  · rw [h3]; decide

section DictLemmas

variable {κ α : Type} [BEq κ]

/-- A key that is not in the dict reads as absent. -/
theorem dget_of_hasKey_false {d : List (κ × α)} {k : κ} (h : hasKey d k = false) :
    dget d k = none := by
  induction d with
  | nil => rfl
  | cons p r ih =>
      simp only [hasKey, List.any_cons, Bool.or_eq_false_iff] at h
      simp only [dget, List.find?, h.1] at ih ⊢
      exact ih h.2

/-- Reading back the key just written (append branch). -/
theorem dget_append_self [LawfulBEq κ] {d : List (κ × α)} {k : κ} {v : α}
    (h : hasKey d k = false) :
    dget (d ++ [(k, v)]) k = some v := by
  induction d with
  | nil => simp [dget, List.find?]
  | cons p r ih =>
      simp only [hasKey, List.any_cons, Bool.or_eq_false_iff] at h
      simp only [dget, List.cons_append, List.find?, h.1] at ih ⊢
      exact ih h.2

/-- Reading back the key just written (replace-in-place branch). -/
theorem dget_mapset_self {d : List (κ × α)} {k : κ} {v : α} (h : hasKey d k = true) :
    dget (d.map (fun p => if p.1 == k then (p.1, v) else p)) k = some v := by
  induction d with
  | nil => simp [hasKey] at h
  | cons p r ih =>
      by_cases hp : (p.1 == k) = true
      · simp [dget, List.find?, if_pos hp, hp]
      · simp only [hasKey, List.any_cons, hp, Bool.false_or] at h
        have hp2 : (p.1 == k) = false := Bool.eq_false_iff.mpr hp
        simp only [List.map_cons]
        rw [if_neg hp]
        simp only [dget, List.find?, hp2] at ih ⊢
        exact ih h

/-- Python `d[k] = v` followed by `d[k]` reads back `v`. -/
theorem dget_dset_self [LawfulBEq κ] (d : List (κ × α)) (k : κ) (v : α) :
    dget (dset d k v) k = some v := by
  unfold dset
  by_cases h : hasKey d k = true
  · rw [if_pos h]; exact dget_mapset_self h
  · rw [if_neg h]; exact dget_append_self (Bool.eq_false_iff.mpr h)

/-- Python `d[k] = v` does not change what any other key reads (append branch). -/
theorem dget_append_ne [LawfulBEq κ] {d : List (κ × α)} {k k2 : κ} {v : α} (h : k2 ≠ k) :
    dget (d ++ [(k, v)]) k2 = dget d k2 := by
  induction d with
  | nil =>
      have hk : (k == k2) = false := beq_eq_false_iff_ne.mpr (Ne.symm h)
      simp [dget, List.find?, hk]
  | cons p r ih =>
      by_cases hp : (p.1 == k2) = true
      · simp [dget, List.cons_append, List.find?, hp]
      · simp only [dget, List.cons_append, List.find?, hp] at ih ⊢
        exact ih

/-- Python `d[k] = v` does not change what any other key reads (replace branch). -/
theorem dget_mapset_ne [LawfulBEq κ] {d : List (κ × α)} {k k2 : κ} {v : α} (h : k2 ≠ k) :
    dget (d.map (fun p => if p.1 == k then (p.1, v) else p)) k2 = dget d k2 := by
  induction d with
  | nil => rfl
  | cons p r ih =>
      by_cases hp : (p.1 == k2) = true
      · have hpk : (p.1 == k) = false := by
          cases hpe : (p.1 == k) with
          | false => rfl
          | true => exact absurd ((eq_of_beq hp).symm.trans (eq_of_beq hpe)) h
        simp [dget, List.map_cons, List.find?, hp, hpk]
      · by_cases hpk : (p.1 == k) = true
        · simp only [dget, List.map_cons, if_pos hpk, List.find?, hp] at ih ⊢
          exact ih
        · simp only [dget, List.map_cons, if_neg hpk, List.find?, hp] at ih ⊢
          exact ih

/-- Python `d[k] = v` leaves every other key's value unchanged. -/
theorem dget_dset_ne [LawfulBEq κ] (d : List (κ × α)) (k k2 : κ) (v : α) (h : k2 ≠ k) :
    dget (dset d k v) k2 = dget d k2 := by
  unfold dset
  by_cases hk : hasKey d k = true
  · rw [if_pos hk]; exact dget_mapset_ne h
  · rw [if_neg hk]; exact dget_append_ne h

/-- Python `d[k] = v` keeps the dict's keys duplicate-free: replacing in
place does not touch the key list, appending adds a key that was absent. -/
theorem keys_dset_nodup [LawfulBEq κ] (d : List (κ × α)) (k : κ) (v : α)
    (h : (d.map Prod.fst).Nodup) : ((dset d k v).map Prod.fst).Nodup := by
  unfold dset
  by_cases hk : hasKey d k = true
  · rw [if_pos hk, List.map_map]
    have hcomp : (Prod.fst ∘ fun p : κ × α => if (p.1 == k) = true then (p.1, v) else p)
        = Prod.fst := by
      funext p
      by_cases hp : (p.1 == k) = true <;> simp [hp]
    rw [hcomp]; exact h
  · rw [if_neg hk, List.map_append]
    rw [List.nodup_append]
    refine ⟨h, List.nodup_singleton k, ?_⟩
    intro x hx hxk
    simp only [List.map_cons, List.map_nil, List.mem_singleton] at hxk
    subst hxk
    simp only [List.mem_map] at hx
    obtain ⟨p, hp, hpx⟩ := hx
    have : hasKey d x = true := by
      simp only [hasKey, List.any_eq_true]
      exact ⟨p, hp, by simp [hpx]⟩
    exact hk this

end DictLemmas

/-- The two subscribed topics are distinct strings. -/
theorem heartbeat_topic_ne_movement : MQTT_HEARTBEAT_TOPIC ≠ MQTT_TOPIC := by decide

/-- When the payload already carries a timestamp, normalization is the
identity. -/
theorem normalizeTimestamp_present (pd : JDict) (now : Int)
    (h : hasKey pd "timestamp" = true) : normalizeTimestamp pd now = pd := by
  simp [normalizeTimestamp, h]

/-- When the payload lacks a timestamp, normalization writes the receive
time under the `timestamp` key. -/
theorem normalizeTimestamp_missing (pd : JDict) (now : Int)
    (h : hasKey pd "timestamp" = false) :
    normalizeTimestamp pd now = dset pd "timestamp" (.num now) := by
  simp [normalizeTimestamp, h]

/-- A normalized payload is never the empty dict: either it already had a
key, or the timestamp binding was appended. -/
theorem normalizeTimestamp_not_empty (pd : JDict) (now : Int) :
    (normalizeTimestamp pd now).isEmpty = false := by
  unfold normalizeTimestamp
  by_cases h : hasKey pd "timestamp" = true
  · rw [if_pos h]
    cases pd with
    | nil => simp [hasKey] at h
    | cons p r => rfl
  · rw [if_neg h]
    unfold dset
    by_cases h2 : hasKey pd "timestamp" = true
    · exact absurd h2 h
    · rw [if_neg h2]
      cases pd <;> rfl

/-- A heartbeat payload with no `node` field is keyed under the literal
string "unknown". -/
theorem nodeKey_of_missing (pd : JDict) (now : Int) (h : hasKey pd "node" = false) :
    nodeKey (normalizeTimestamp pd now) = .str "unknown" := by
  unfold nodeKey dgetD
  by_cases ht : hasKey pd "timestamp" = true
  · rw [normalizeTimestamp_present pd now ht, dget_of_hasKey_false h]
    rfl
  · rw [normalizeTimestamp_missing pd now (Bool.eq_false_iff.mpr ht)]
    rw [dget_dset_ne pd _ _ _ (by decide)]
    rw [dget_of_hasKey_false h]
    rfl

/-- C5: an inbound bus event whose raw payload fails to decode (UTF-8 or
JSON) is logged and discarded without raising: the movement cache, the
heartbeat cache and the client registry are all untouched, and no broadcast
happens for that event. -/
theorem mqtt_parse_failure_discards (sendr : Nat → Except SendError Unit)
    (st : BackendState) (topic : String) (now : Int) :
    (on_mqtt_message sendr st topic none now).1.latest_movement_data
        = st.latest_movement_data
    ∧ (on_mqtt_message sendr st topic none now).1.latest_heartbeat_data
        = st.latest_heartbeat_data
    ∧ (on_mqtt_message sendr st topic none now).1.websocket_clients
        = st.websocket_clients
    ∧ (on_mqtt_message sendr st topic none now).2 = none :=
  ⟨rfl, rfl, rfl, rfl⟩

/-- C6: on every exit path of the per-client handler — normal close,
connection error, or an unhandled error while processing — the client ends
up removed from the registry (the `finally` discard runs exactly once, as
the single `registryDiscard` after the exit-cause dispatch), and no other
client's membership changes. -/
theorem handler_cleanup_every_path (reg : List Nat) (c : Nat) (e : ExitCause) :
    handleClientRegistry reg c e = registryDiscard (registryAdd reg c) c
    ∧ c ∉ handleClientRegistry reg c e
    ∧ (∀ x, x ≠ c → (x ∈ handleClientRegistry reg c e ↔ x ∈ reg)) := by
  have heq : handleClientRegistry reg c e = registryDiscard (registryAdd reg c) c := by
    cases e <;> rfl
  refine ⟨heq, ?_, ?_⟩
  · rw [heq]
    simp [registryDiscard, List.mem_filter]
  · intro x hx
    rw [heq]
    simp only [registryDiscard, registryAdd, List.mem_filter]
    by_cases hc : c ∈ reg
    · simp [hc, hx]
    · simp [hc, hx, List.mem_append]

/-- Witness for C6: a concrete handler run on each exit cause removes the
client. -/
theorem handler_cleanup_every_path_witness :
    2 ∉ handleClientRegistry [1, 2] 2 ExitCause.otherError
    ∧ 2 ∉ handleClientRegistry [1, 2] 2 ExitCause.connectionClosed
    ∧ 2 ∉ handleClientRegistry [1, 2] 2 ExitCause.normalClose :=
  ⟨(handler_cleanup_every_path [1, 2] 2 ExitCause.otherError).2.1,
   (handler_cleanup_every_path [1, 2] 2 ExitCause.connectionClosed).2.1,
   (handler_cleanup_every_path [1, 2] 2 ExitCause.normalClose).2.1⟩

/-- C7: registry add and remove are idempotent — adding a member that is
already present leaves the registry unchanged, and discarding an absent
member leaves it unchanged (and, being a total function, never raises). -/
theorem registry_add_discard_idempotent (reg : List Nat) (c : Nat) :
    (c ∈ reg → registryAdd reg c = reg)
    ∧ (c ∉ reg → registryDiscard reg c = reg) := by
  constructor
  · intro h
    simp [registryAdd, h]
  · intro h
    simp only [registryDiscard]
    rw [List.filter_eq_self]
    intro x hx
    simp
    rintro rfl
    exact h hx

/-- Witness for C7: re-adding the member 2 and discarding the absent 5
both leave the registry [1, 2] unchanged. -/
theorem registry_add_discard_idempotent_witness :
    registryAdd [1, 2] 2 = [1, 2] ∧ registryDiscard [1, 2] 5 = [1, 2] :=
  ⟨(registry_add_discard_idempotent [1, 2] 2).1 (by decide),
   (registry_add_discard_idempotent [1, 2] 5).2 (by decide)⟩

/-- C3: for every successfully parsed bus message on a subscribed topic,
ingested at whole-second receive time `now`: the broadcast envelope carries
the normalized payload; when the payload lacked a `timestamp` field the
normalized payload is the payload with exactly one added binding
`timestamp = now` (so it reads back `now`), and this assignment happens at
ingestion, before storage and broadcast; when the payload carried a
timestamp it is cached and broadcast unmodified; and the value stored in
the matching cache is that same normalized payload. -/
theorem timestamp_normalized_once (sendr : Nat → Except SendError Unit)
    (st : BackendState) (topic : String) (pd : JDict) (now : Int)
    (htopic : topic = MQTT_TOPIC ∨ topic = MQTT_HEARTBEAT_TOPIC)
    (hnode : topic = MQTT_HEARTBEAT_TOPIC →
      hashableKey (nodeKey (normalizeTimestamp pd now)) = true) :
    ((on_mqtt_message sendr st topic (some pd) now).2
        = some (mqttEnvelope topic (normalizeTimestamp pd now)))
    ∧ (hasKey pd "timestamp" = false →
        normalizeTimestamp pd now = dset pd "timestamp" (.num now)
        ∧ dget (normalizeTimestamp pd now) "timestamp" = some (.num now))
    ∧ (hasKey pd "timestamp" = true → normalizeTimestamp pd now = pd)
    ∧ (topic = MQTT_TOPIC →
        (on_mqtt_message sendr st topic (some pd) now).1.latest_movement_data
          = some (normalizeTimestamp pd now))
    ∧ (topic = MQTT_HEARTBEAT_TOPIC →
        dget (on_mqtt_message sendr st topic (some pd) now).1.latest_heartbeat_data
            (nodeKey (normalizeTimestamp pd now))
          = some (normalizeTimestamp pd now)) := by
  have hts1 : hasKey pd "timestamp" = false →
      normalizeTimestamp pd now = dset pd "timestamp" (.num now)
      ∧ dget (normalizeTimestamp pd now) "timestamp" = some (.num now) := by
    intro h
    have he := normalizeTimestamp_missing pd now h
    refine ⟨he, ?_⟩
    rw [he]
    exact dget_dset_self pd _ _
  have hts2 := normalizeTimestamp_present pd now
  rcases htopic with rfl | rfl
  · have hHM : (MQTT_TOPIC == MQTT_HEARTBEAT_TOPIC) = false := by decide
    refine ⟨?_, hts1, hts2, fun _ => ?_, fun habs => absurd habs (by decide)⟩
    · simp [on_mqtt_message, hHM]
    · simp [on_mqtt_message, hHM]
  · have hMH : (MQTT_HEARTBEAT_TOPIC == MQTT_TOPIC) = false := by decide
    have hkey := hnode rfl
    refine ⟨?_, hts1, hts2, fun habs => absurd habs (by decide), fun _ => ?_⟩
    · simp [on_mqtt_message, hMH, hkey]
    · simp [on_mqtt_message, hMH, hkey, dget_dset_self]

/-- Witness for C3: a movement payload with no timestamp, ingested at
time 42, is broadcast wrapped in the relay envelope with its normalized
(timestamped) payload. -/
theorem timestamp_normalized_once_witness :
    (on_mqtt_message (fun _ => .ok ()) ⟨[], none, []⟩ MQTT_TOPIC
        (some [("status", JValue.str "MOVING")]) 42).2
      = some (mqttEnvelope MQTT_TOPIC
          (normalizeTimestamp [("status", JValue.str "MOVING")] 42)) :=
  (timestamp_normalized_once (fun _ => .ok ()) ⟨[], none, []⟩ MQTT_TOPIC
    [("status", JValue.str "MOVING")] 42 (Or.inl rfl) (by decide)).1

/-- C4: every heartbeat message is stored keyed by its payload's `node`
field (a missing `node` defaulting to the literal "unknown"): the stored
dict is exactly the prior cache updated at that one key, the key reads back
the new payload, every other node's entry is untouched (so messages for
distinct nodes persist independently and a repeated node overwrites only
its own entry), and the cache keeps at most one value per node key. -/
theorem heartbeat_keyed_by_node (sendr : Nat → Except SendError Unit)
    (st : BackendState) (pd : JDict) (now : Int)
    (hkey : hashableKey (nodeKey (normalizeTimestamp pd now)) = true) :
    ((on_mqtt_message sendr st MQTT_HEARTBEAT_TOPIC (some pd) now).1.latest_heartbeat_data
        = dset st.latest_heartbeat_data (nodeKey (normalizeTimestamp pd now))
            (normalizeTimestamp pd now))
    ∧ dget (on_mqtt_message sendr st MQTT_HEARTBEAT_TOPIC (some pd) now).1.latest_heartbeat_data
          (nodeKey (normalizeTimestamp pd now)) = some (normalizeTimestamp pd now)
    ∧ (∀ k2, k2 ≠ nodeKey (normalizeTimestamp pd now) →
        dget (on_mqtt_message sendr st MQTT_HEARTBEAT_TOPIC (some pd) now).1.latest_heartbeat_data
            k2
          = dget st.latest_heartbeat_data k2)
    ∧ (hasKey pd "node" = false → nodeKey (normalizeTimestamp pd now) = .str "unknown")
    ∧ ((st.latest_heartbeat_data.map Prod.fst).Nodup →
        ((on_mqtt_message sendr st MQTT_HEARTBEAT_TOPIC
            (some pd) now).1.latest_heartbeat_data.map Prod.fst).Nodup) := by
  have hMH : (MQTT_HEARTBEAT_TOPIC == MQTT_TOPIC) = false := by decide
  have hst : (on_mqtt_message sendr st MQTT_HEARTBEAT_TOPIC
      (some pd) now).1.latest_heartbeat_data
      = dset st.latest_heartbeat_data (nodeKey (normalizeTimestamp pd now))
          (normalizeTimestamp pd now) := by
    simp [on_mqtt_message, hMH, hkey]
  refine ⟨hst, ?_, ?_, nodeKey_of_missing pd now, ?_⟩
  · rw [hst]
    exact dget_dset_self _ _ _
  · intro k2 hk2
    rw [hst]
    exact dget_dset_ne _ _ _ _ hk2
  · intro hnd
    rw [hst]
    exact keys_dset_nodup _ _ _ hnd

/-- Witness for C4: two heartbeats from nodes "pi" and "laptop" persist
independently; re-keying is exercised through the proved equalities at a
concrete cache. -/
theorem heartbeat_keyed_by_node_witness :
    dget (on_mqtt_message (fun _ => .ok ())
        ⟨[], none, [(JValue.str "laptop", [("node", JValue.str "laptop"), ("timestamp", JValue.num 1)])]⟩
        MQTT_HEARTBEAT_TOPIC
        (some [("node", JValue.str "pi"), ("status", JValue.str "alive")])
        5).1.latest_heartbeat_data
      (nodeKey (normalizeTimestamp [("node", JValue.str "pi"), ("status", JValue.str "alive")] 5))
      = some (normalizeTimestamp [("node", JValue.str "pi"), ("status", JValue.str "alive")] 5) :=
  (heartbeat_keyed_by_node (fun _ => .ok ())
    ⟨[], none, [(JValue.str "laptop", [("node", JValue.str "laptop"), ("timestamp", JValue.num 1)])]⟩
    [("node", JValue.str "pi"), ("status", JValue.str "alive")] 5 (by decide)).2.1

/-- The two subscribed topic names, the other way round. -/
theorem movement_topic_ne : MQTT_TOPIC ≠ MQTT_HEARTBEAT_TOPIC := by decide

/-- The welcome envelope is not a relay envelope (their `type` fields differ). -/
theorem welcome_ne_movement (now : Int) (d : JDict) :
    welcomeMessage now ≠ movementMessage d := by
  simp [welcomeMessage, movementMessage, mqttEnvelope]

/-- The welcome envelope is not a heartbeat snapshot envelope. -/
theorem welcome_ne_heartbeatSnapshot (now : Int) (m : HbCache) :
    welcomeMessage now ≠ heartbeatSnapshotMessage m := by
  simp [welcomeMessage, heartbeatSnapshotMessage]

/-- A movement snapshot envelope is not a heartbeat snapshot envelope
(their `topic` fields differ). -/
theorem movement_ne_heartbeatSnapshot (d : JDict) (m : HbCache) :
    movementMessage d ≠ heartbeatSnapshotMessage m := by
  simp [movementMessage, heartbeatSnapshotMessage, mqttEnvelope, movement_topic_ne]

/-- When every send succeeds, the whole sequence is delivered. -/
theorem runSends_all_ok (ok : Nat → Bool) (h : ∀ j, ok j = true) :
    ∀ (i : Nat) (msgs : List JValue), runSends ok i msgs = (msgs, true)
  | _, [] => rfl
  | i, m :: rest => by
      simp [runSends, h i, runSends_all_ok ok h (i + 1) rest]

/-- When the k-th send raises (and the earlier ones succeeded), exactly the
first k messages were delivered and the remaining sends are aborted. -/
theorem runSends_aborts (ok : Nat → Bool) :
    ∀ (msgs : List JValue) (i k : Nat), k < msgs.length → ok (i + k) = false →
      (∀ j, j < k → ok (i + j) = true) →
      runSends ok i msgs = (msgs.take k, false)
  | [], _, k, hk, _, _ => absurd hk (by simp)
  | m :: rest, i, 0, _, hf, _ => by
      simp only [Nat.add_zero] at hf
      simp [runSends, hf]
  | m :: rest, i, k + 1, hk, hf, hj => by
      have h0 : ok i = true := by
        have := hj 0 (Nat.succ_pos k)
        simpa using this
      have ih := runSends_aborts ok rest (i + 1) k (by simpa using hk)
        (by rw [show i + 1 + k = i + (k + 1) from by omega]; exact hf)
        (fun j hjk => by
          rw [show i + 1 + j = i + (j + 1) from by omega]
          exact hj (j + 1) (by omega))
      simp [runSends, h0, ih]

/-- Which envelopes the connect-time sequence contains: the welcome always,
the movement snapshot for a truthy cached movement value, the heartbeat
snapshot for a non-empty heartbeat cache. -/
theorem mem_connectSequence (st : BackendState) (now : Int) (x : JValue) :
    x ∈ connectSequence st now ↔
      x = welcomeMessage now
      ∨ (∃ d, st.latest_movement_data = some d ∧ d.isEmpty = false
          ∧ x = movementMessage d)
      ∨ (st.latest_heartbeat_data.isEmpty = false
          ∧ x = heartbeatSnapshotMessage st.latest_heartbeat_data) := by
  cases hmov : st.latest_movement_data with
  | none =>
      cases hhb : st.latest_heartbeat_data <;>
        simp [connectSequence, hmov, hhb]
  | some d =>
      cases d with
      | nil =>
          cases hhb : st.latest_heartbeat_data <;>
            simp [connectSequence, hmov, hhb]
      | cons a l =>
          cases hhb : st.latest_heartbeat_data <;>
            simp [connectSequence, hmov, hhb]

/-- C8: on a new connection the handler sends, in order: the welcome
envelope first; a movement snapshot envelope exactly when a movement value
is cached; a heartbeat snapshot envelope exactly when the heartbeat cache
is non-empty (with both present the sequence is exactly welcome, movement,
heartbeat); and when the client disconnects at the k-th send, the earlier
sends were delivered and the remaining sends are aborted (the handler falls
through to its `finally` and the connection is closed). The hypothesis is
the reachable-state invariant that a cached movement value is non-empty. -/
theorem connect_welcome_then_snapshots (st : BackendState) (now : Int) (ok : Nat → Bool)
    (hwf : movementCacheWellFormed st = true) :
    (connectSequence st now).head? = some (welcomeMessage now)
    ∧ ((∃ d, movementMessage d ∈ connectSequence st now)
        ↔ st.latest_movement_data.isSome = true)
    ∧ (heartbeatSnapshotMessage st.latest_heartbeat_data ∈ connectSequence st now
        ↔ st.latest_heartbeat_data ≠ [])
    ∧ (∀ d, st.latest_movement_data = some d → st.latest_heartbeat_data ≠ [] →
        connectSequence st now
          = [welcomeMessage now, movementMessage d,
             heartbeatSnapshotMessage st.latest_heartbeat_data])
    ∧ ((∀ j, ok j = true) →
        runSends ok 0 (connectSequence st now) = (connectSequence st now, true))
    ∧ (∀ k, k < (connectSequence st now).length → ok k = false →
        (∀ j, j < k → ok j = true) →
        runSends ok 0 (connectSequence st now)
          = ((connectSequence st now).take k, false)) := by
  refine ⟨rfl, ?_, ?_, ?_, fun h => runSends_all_ok ok h 0 _,
    fun k hk hf hj => runSends_aborts ok _ 0 k hk (by simpa using hf)
      (fun j hjk => by simpa using hj j hjk)⟩
  · constructor
    · rintro ⟨d, hd⟩
      rcases (mem_connectSequence st now _).mp hd with h1 | ⟨d0, hm, _, _⟩ | ⟨_, h3⟩
      · exact absurd h1.symm (welcome_ne_movement now d)
      · rw [hm]; rfl
      · exact absurd h3 (movement_ne_heartbeatSnapshot d _)
    · intro hsome
      cases hmov : st.latest_movement_data with
      | none => rw [hmov] at hsome; simp at hsome
      | some d0 =>
          have h2 := hwf
          simp only [movementCacheWellFormed, hmov] at h2
          have hie : d0.isEmpty = false := by simpa using h2
          exact ⟨d0, (mem_connectSequence st now _).mpr
            (Or.inr (Or.inl ⟨d0, hmov, hie, rfl⟩))⟩
  · constructor
    · intro hmem
      rcases (mem_connectSequence st now _).mp hmem with h1 | ⟨d0, _, _, h2⟩ | ⟨hie, _⟩
      · exact absurd h1.symm (welcome_ne_heartbeatSnapshot now _)
      · exact absurd h2.symm (movement_ne_heartbeatSnapshot d0 _)
      · intro hnil
        rw [hnil] at hie
        simp at hie
    · intro hne
      have hie : st.latest_heartbeat_data.isEmpty = false := by
        cases hhb : st.latest_heartbeat_data with
        | nil => exact absurd hhb hne
        | cons p r => rfl
      exact (mem_connectSequence st now _).mpr (Or.inr (Or.inr ⟨hie, rfl⟩))
  · intro d hd hne
    have h2 := hwf
    simp only [movementCacheWellFormed, hd] at h2
    have hie : d.isEmpty = false := by simpa using h2
    have hbe : st.latest_heartbeat_data.isEmpty = false := by
      cases hhb : st.latest_heartbeat_data with
      | nil => exact absurd hhb hne
      | cons p r => rfl
    simp [connectSequence, hd, hie, hbe]

/-- Witness for C8: with a cached movement value and one cached heartbeat,
a new connection is sent exactly welcome, movement snapshot, heartbeat
snapshot, in that order. -/
theorem connect_welcome_then_snapshots_witness :
    connectSequence
        ⟨[], some [("status", JValue.str "MOVING"), ("timestamp", JValue.num 3)],
         [(JValue.str "pi", [("node", JValue.str "pi")])]⟩ 7
      = [welcomeMessage 7,
         movementMessage [("status", JValue.str "MOVING"), ("timestamp", JValue.num 3)],
         heartbeatSnapshotMessage [(JValue.str "pi", [("node", JValue.str "pi")])]] :=
  (connect_welcome_then_snapshots
      ⟨[], some [("status", JValue.str "MOVING"), ("timestamp", JValue.num 3)],
       [(JValue.str "pi", [("node", JValue.str "pi")])]⟩ 7 (fun _ => true)
      (by decide)).2.2.2.1
    [("status", JValue.str "MOVING"), ("timestamp", JValue.num 3)] rfl (by decide)

/-- C9: for every message received from a connected client while Active:
a message that fails to parse draws no reply and the loop goes on with the
remaining messages; a parsed message whose `type` equals "ping" is answered
with exactly one pong envelope carrying the current whole-second time; a
parsed message with any other (or absent) `type` draws no reply and no
error; and after a malformed message the very next message is still
processed. -/
theorem client_message_handling (rest : List (Option JDict × Int)) (t now : Int)
    (data : JDict) :
    clientMessageLoop ((none, t) :: rest) = clientMessageLoop rest
    ∧ (dget data "type" = some (.str "ping") →
        clientMessageStep (some data) now = some (pongMessage now))
    ∧ (dget data "type" ≠ some (.str "ping") →
        clientMessageStep (some data) now = none)
    ∧ clientMessageLoop ((none, t) :: (some data, now) :: rest)
        = (clientMessageStep (some data) now).toList ++ clientMessageLoop rest := by
  refine ⟨rfl, ?_, ?_, rfl⟩
  · intro h
    simp [clientMessageStep, h]
  · intro h
    simp [clientMessageStep, h]

/-- Witness for C9: a concrete ping is answered with the pong envelope. -/
theorem client_message_handling_witness :
    clientMessageStep (some [("type", JValue.str "ping")]) 9 = some (pongMessage 9) :=
  (client_message_handling [] 0 9 [("type", JValue.str "ping")]).2.1 (by decide)

/-- C10: the heartbeat snapshot envelope sent at connect time carries in
`data` the entire node-keyed mapping (one envelope for all nodes), while
each per-event heartbeat relay envelope carries in `data` the single
ingested message; both use the `mqtt_message` type and the heartbeat topic,
and the two `data` shapes differ, as a concrete instance shows. -/
theorem heartbeat_snapshot_vs_relay_shape :
    (∀ m : HbCache, jfield (heartbeatSnapshotMessage m) "data" = some (hbCacheJson m))
    ∧ (∀ (st : BackendState) (now : Int), st.latest_heartbeat_data ≠ [] →
        heartbeatSnapshotMessage st.latest_heartbeat_data ∈ connectSequence st now)
    ∧ (∀ (sendr : Nat → Except SendError Unit) (st : BackendState) (pd : JDict) (now : Int),
        hashableKey (nodeKey (normalizeTimestamp pd now)) = true →
        (on_mqtt_message sendr st MQTT_HEARTBEAT_TOPIC (some pd) now).2
          = some (mqttEnvelope MQTT_HEARTBEAT_TOPIC (normalizeTimestamp pd now)))
    ∧ (∀ (topic : String) (d : JDict), jfield (mqttEnvelope topic d) "data" = some (.obj d))
    ∧ hbCacheJson [(JValue.str "pi", [("node", JValue.str "pi"), ("timestamp", JValue.num 5)])]
        ≠ JValue.obj [("node", JValue.str "pi"), ("timestamp", JValue.num 5)] := by
  refine ⟨fun m => rfl, ?_, ?_, fun topic d => rfl, by decide⟩
  · intro st now hne
    have hie : st.latest_heartbeat_data.isEmpty = false := by
      cases hhb : st.latest_heartbeat_data with
      | nil => exact absurd hhb hne
      | cons p r => rfl
    exact (mem_connectSequence st now _).mpr (Or.inr (Or.inr ⟨hie, rfl⟩))
  · intro sendr st pd now hkey
    have hMH : (MQTT_HEARTBEAT_TOPIC == MQTT_TOPIC) = false := by decide
    simp [on_mqtt_message, hMH, hkey]

/-- Witness for C10: the snapshot envelope's `data` field at a concrete
one-node cache is the whole node-keyed mapping. -/
theorem heartbeat_snapshot_vs_relay_shape_witness :
    jfield (heartbeatSnapshotMessage [(JValue.str "pi", [("a", JValue.num 1)])]) "data"
      = some (hbCacheJson [(JValue.str "pi", [("a", JValue.num 1)])]) :=
  heartbeat_snapshot_vs_relay_shape.1 [(JValue.str "pi", [("a", JValue.num 1)])]

/-- The movement-cache invariant holds in the initial module state
(`websocket_clients = set()`, `latest_movement_data = None`,
`latest_heartbeat_data = {}`). -/
theorem movementCacheWellFormed_initial : movementCacheWellFormed ⟨[], none, []⟩ = true := rfl

/-- The single writer of the caches preserves the movement-cache invariant:
whatever `on_mqtt_message` stores contains a `timestamp` key, so a cached
movement value is never the empty (falsy) dict. Hence the hypothesis of the
connect-sequence theorem holds in every reachable state. -/
theorem on_mqtt_message_wellFormed (sendr : Nat → Except SendError Unit)
    (st : BackendState) (topic : String) (parsed : Option JDict) (now : Int)
    (h : movementCacheWellFormed st = true) :
    movementCacheWellFormed (on_mqtt_message sendr st topic parsed now).1 = true := by
  cases parsed with
  | none => exact h
  | some pd =>
      by_cases hg : (topic == MQTT_HEARTBEAT_TOPIC
          && !hashableKey (nodeKey (normalizeTimestamp pd now))) = true
      · simp only [on_mqtt_message, hg, if_true]
        exact h
      · have hg2 : (topic == MQTT_HEARTBEAT_TOPIC
            && !hashableKey (nodeKey (normalizeTimestamp pd now))) = false :=
          Bool.eq_false_iff.mpr hg
        by_cases h1 : (topic == MQTT_TOPIC) = true
        · simp only [on_mqtt_message, hg2, Bool.false_eq_true, if_false, h1, if_true]
          simp [movementCacheWellFormed, normalizeTimestamp_not_empty]
        · have h12 : (topic == MQTT_TOPIC) = false := Bool.eq_false_iff.mpr h1
          by_cases h2 : (topic == MQTT_HEARTBEAT_TOPIC) = true
          · have hkey : hashableKey (nodeKey (normalizeTimestamp pd now)) = true := by
              simpa [h2] using hg2
            simp only [on_mqtt_message, h12, h2, hkey, Bool.not_true, Bool.and_false,
              Bool.false_eq_true, if_false, if_true]
            simpa [movementCacheWellFormed] using h
          · have h22 : (topic == MQTT_HEARTBEAT_TOPIC) = false := Bool.eq_false_iff.mpr h2
            simp only [on_mqtt_message, hg2, Bool.false_eq_true, if_false, h12, h22]
            simpa [movementCacheWellFormed] using h

end FaceLockWS
